import Mathlib

/-!
Shallow embedding of the wg-knot relay core (packet_sender.go).

The program relays WireGuard datagrams between admitted peers.  Its state is
the `PeerManager`: four maps guarded by one mutex in Go, modelled here as
association lists with first-match lookup and in-place overwrite insertion
(the semantics of a Go map, with an arbitrary but fixed iteration order).

A Go `*Peer` is never mutated after creation (its fields are only written in
the composite literal that allocates it), so a `Peer` is modelled as a value.
Time (`time.Time` / `time.Duration`) is modelled as `Int`; `time.Now()` is
passed in explicitly as the `now` argument of each operation.

The BLAKE2s primitives come from the external library golang.org/x/crypto;
they are abstracted as a `HashModel` parameter (a 256-bit unkeyed digest and
a 128-bit keyed MAC), so every theorem holds for any hash instantiation and
concrete scenarios pick an explicit executable one.  UDP sends never fail in
the model; each handler returns the list of `(destination, payload)` datagrams
it emitted instead of performing I/O, and the `context.Context` cancellation
checks (which only abort on an already-cancelled context) are elided.
-/

deriving instance DecidableEq for Except

namespace WgKnot

/-- Byte strings are lists of naturals (each entry a byte value). -/
abbrev Bytes := List Nat

/-- 32-byte opaque identity (`type PublicKey [32]byte`). -/
abbrev PublicKey := Bytes

/-- 32-byte MAC1 key (`type Mac1Key [32]byte`). -/
abbrev Mac1Key := Bytes

/-- 4-byte session index (`type SenderID [4]byte` / `type ReceiverID [4]byte`,
interchangeable in the source, which casts one to the other). -/
abbrev SessionIndex := Bytes

/-- `const WGLabelMAC1 = "mac1----"` as bytes. -/
def wgLabelMac1 : Bytes := [0x6d, 0x61, 0x63, 0x31, 0x2d, 0x2d, 0x2d, 0x2d]

/-- `type Peer struct { Addr *net.UDPAddr; Timestamp time.Time }`.
The address is identified with its string form (`Addr.String()`), which is
exactly what the source compares for deduplication. -/
structure Peer where
  addr : String
  timestamp : Int
deriving DecidableEq, Repr

/-- Abstraction of the external BLAKE2s library: `hash256` is the unkeyed
256-bit digest (`blake2s.New256(nil)`), `mac128` the keyed 128-bit MAC
(`blake2s.New128(key)`), both written then summed over a full message. -/
structure HashModel where
  hash256 : Bytes → Bytes
  mac128 : Mac1Key → Bytes → Bytes

/-- Go map read `v, ok := m[k]`: first binding of the key wins. -/
def alookup {α β : Type} [DecidableEq α] : List (α × β) → α → Option β
  | [], _ => none
  | (k, v) :: rest, k2 => if k2 = k then some v else alookup rest k2

/-- Go map write `m[k] = v`: overwrite the binding in place, else append. -/
def ainsert {α β : Type} [DecidableEq α] : List (α × β) → α → β → List (α × β)
  | [], k, v => [(k, v)]
  | (k2, v2) :: rest, k, v =>
      if k2 = k then (k, v) :: rest else (k2, v2) :: ainsert rest k v

/-- `func AppendUniqueValue[T, V](m map[T][]V, key T, value V, equal func(a, b V) bool)`:
scan `m[key]` (empty when the key is absent) and return unchanged on the first
`equal` hit, otherwise `m[key] = append(m[key], value)`. -/
def appendUniqueValue {α β : Type} [DecidableEq α] (m : List (α × List β))
    (key : α) (value : β) (equal : β → β → Bool) : List (α × List β) :=
  if ((alookup m key).getD []).any (fun v => equal v value) then m
  else ainsert m key ((alookup m key).getD [] ++ [value])

/-- `type PeerManager struct`: the four maps plus the configured expiration.
The `packetSender` and `logger` fields are I/O collaborators and are not part
of the state; the mutex serialises operations, which the model reflects by
making each operation a whole-state function. -/
structure PeerManager where
  receiverToPeerMap : List (SessionIndex × Peer)
  publicKeyToPeersMap : List (PublicKey × List Peer)
  publicKeyToMac1KeyMap : List (PublicKey × Mac1Key)
  publicKeyToPairPublicKeysMap : List (PublicKey × List PublicKey)
  peerExpiration : Int
deriving DecidableEq, Repr

/-- The error kinds a packet-handling operation can produce (errors.go);
`PacketSendFailed` cannot arise because sends are abstract and never fail,
and `InvalidPublicKey` is configuration-time only. -/
inductive PMError where
  | invalidPacket (details : String)
  | authenticationFailed (details : String)
  | peerNotFound (details : String)
deriving DecidableEq, Repr

/-- `func CalculateMac1Key(publicKey PublicKey) (Mac1Key, error)`:
BLAKE2s-256 of `"mac1----" ‖ publicKey` (the error branch is unreachable,
`blake2s.New256(nil)` never fails). -/
def calculateMac1Key (H : HashModel) (publicKey : PublicKey) : Mac1Key :=
  H.hash256 (wgLabelMac1 ++ publicKey)

/-- The `isEqual` closure of `AddPublicKeyPair`: `a == b` on 32-byte arrays. -/
def pkEq (a b : PublicKey) : Bool := a == b

/-- The `isEqual` closure of `AddPeerByPublicKey`: compare address strings
(the nil guard never fires — peers are always allocated non-nil). -/
def peerEq (a b : Peer) : Bool := a.addr == b.addr

/-- `func (pm *PeerManager) AddPublicKeyPair(ctx, publicKey1, publicKey2)`:
store both MAC1 keys, then append each key to the other's partner list,
deduplicated. -/
def addPublicKeyPair (H : HashModel) (pm : PeerManager)
    (publicKey1 publicKey2 : PublicKey) : PeerManager :=
  let m1 := ainsert pm.publicKeyToMac1KeyMap publicKey1 (calculateMac1Key H publicKey1)
  let m2 := ainsert m1 publicKey2 (calculateMac1Key H publicKey2)
  let p1 := appendUniqueValue pm.publicKeyToPairPublicKeysMap publicKey1 publicKey2 pkEq
  let p2 := appendUniqueValue p1 publicKey2 publicKey1 pkEq
  { pm with publicKeyToMac1KeyMap := m2, publicKeyToPairPublicKeysMap := p2 }

/-- `func NewPeerManager(packetSender, publicKeyPairList, logger, peerExpiration)`:
empty maps, then `AddPublicKeyPair` for each configured pair in order. -/
def newPeerManager (H : HashModel) (publicKeyPairList : List (PublicKey × PublicKey))
    (peerExpiration : Int) : PeerManager :=
  publicKeyPairList.foldl (fun pm pair => addPublicKeyPair H pm pair.1 pair.2)
    { receiverToPeerMap := []
      publicKeyToPeersMap := []
      publicKeyToMac1KeyMap := []
      publicKeyToPairPublicKeysMap := []
      peerExpiration := peerExpiration }

/-- Go slice expression `p[a:b]`. -/
def slice (p : Bytes) (a b : Nat) : Bytes := (p.drop a).take (b - a)

/-- One iteration of the scan in `CheckMAC1AndGetPublicKey`: keyed
BLAKE2s-128 of `payload[:len-32]` compared (`hmac.Equal`) against
`payload[len-32 : len-16]`. -/
def mac1Matches (H : HashModel) (payload : Bytes) (mac1Key : Mac1Key) : Bool :=
  let startMac2Pos := payload.length - 16
  let startMac1Pos := startMac2Pos - 16
  H.mac128 mac1Key (payload.take startMac1Pos) == slice payload startMac1Pos startMac2Pos

/-- `func (pm *PeerManager) CheckMAC1AndGetPublicKey(ctx, payload)`:
return the first admitted public key whose MAC1 key authenticates the
payload, else `AuthenticationFailed` (the `blake2s.New128` error branch is
unreachable, the key is always 32 bytes). -/
def checkMAC1AndGetPublicKey (H : HashModel) (pm : PeerManager)
    (payload : Bytes) : Except PMError PublicKey :=
  match pm.publicKeyToMac1KeyMap.find? (fun e => mac1Matches H payload e.2) with
  | some e => .ok e.1
  | none => .error (.authenticationFailed "mac1 verification failed")

/-- `func (pm *PeerManager) AddPeerByPublicKey(ctx, addr, senderID, receiverPublicKey)`:
if the sender index is known, re-store the existing peer unchanged; otherwise
look up the partner list (absent: `PeerNotFound`), allocate a fresh peer with
`time.Now()`, append it (dedup by address) under the single partner when the
list has exactly one element, and store it under the sender index. -/
def addPeerByPublicKey (pm : PeerManager) (addr : String) (senderID : SessionIndex)
    (receiverPublicKey : PublicKey) (now : Int) : Except PMError PeerManager :=
  match alookup pm.receiverToPeerMap senderID with
  | some peer =>
      .ok { pm with receiverToPeerMap := ainsert pm.receiverToPeerMap senderID peer }
  | none =>
      match alookup pm.publicKeyToPairPublicKeysMap receiverPublicKey with
      | none => .error (.peerNotFound "paired public key not found")
      | some publicKey =>
          let peer : Peer := { addr := addr, timestamp := now }
          let pm2 :=
            match publicKey with
            | [single] =>
                { pm with publicKeyToPeersMap :=
                    appendUniqueValue pm.publicKeyToPeersMap single peer peerEq }
            | _ => pm
          .ok { pm2 with receiverToPeerMap := ainsert pm2.receiverToPeerMap senderID peer }

/-- `func (pm *PeerManager) AddPeerBySenderID(ctx, addr, senderID, publicKey)`:
create the sender-index entry if absent, never touching the pk lists
(the publicKey argument is only logged). -/
def addPeerBySenderID (pm : PeerManager) (addr : String) (senderID : SessionIndex)
    (now : Int) : PeerManager :=
  match alookup pm.receiverToPeerMap senderID with
  | some _ => pm
  | none =>
      { pm with receiverToPeerMap :=
          ainsert pm.receiverToPeerMap senderID { addr := addr, timestamp := now } }

/-- An emitted datagram: destination address and payload. -/
abbrev Send := String × Bytes

/-- Outcome of handling one packet: the state after the operation, the
datagrams sent, and the handler's return value. -/
structure HResult where
  state : PeerManager
  sends : List Send
  result : Except PMError Unit
deriving DecidableEq, Repr

/-- `func (pm *PeerManager) GetPublicKeyToPeers(ctx, publicKey)`:
the `peers, exists` pair of a Go map read. -/
def getPublicKeyToPeers (pm : PeerManager) (publicKey : PublicKey) :
    List Peer × Bool :=
  match alookup pm.publicKeyToPeersMap publicKey with
  | some peers => (peers, true)
  | none => ([], false)

/-- `func (pm *PeerManager) HandleType1Packet(ctx, addr, senderID, publicKey, payload)`:
record the peer, then forward the payload to every endpoint currently listed
under the MAC1-authenticated public key. -/
def handleType1Packet (pm : PeerManager) (addr : String) (senderID : SessionIndex)
    (publicKey : PublicKey) (payload : Bytes) (now : Int) : HResult :=
  match addPeerByPublicKey pm addr senderID publicKey now with
  | .error e => ⟨pm, [], .error e⟩
  | .ok pm2 =>
      let pe := getPublicKeyToPeers pm2 publicKey
      if pe.2 then ⟨pm2, pe.1.map (fun peer => (peer.addr, payload)), .ok ()⟩
      else ⟨pm2, [], .ok ()⟩

/-- `func (pm *PeerManager) ForwardPacketToReceiver(ctx, receiverID, payload)`:
forward to the endpoint stored under the receiver index, else `PeerNotFound`. -/
def forwardPacketToReceiver (pm : PeerManager) (receiverID : SessionIndex)
    (payload : Bytes) : HResult :=
  match alookup pm.receiverToPeerMap receiverID with
  | none => ⟨pm, [], .error (.peerNotFound "no peer found for receiver ID")⟩
  | some peer => ⟨pm, [(peer.addr, payload)], .ok ()⟩

/-- `func (pm *PeerManager) HandleType2Packet(ctx, addr, senderID, receiverID, publicKey, payload)`:
record the responder under its sender index, then forward to the receiver index. -/
def handleType2Packet (pm : PeerManager) (addr : String) (senderID : SessionIndex)
    (receiverID : SessionIndex) (publicKey : PublicKey) (payload : Bytes)
    (now : Int) : HResult :=
  forwardPacketToReceiver (addPeerBySenderID pm addr senderID now) receiverID payload

/-- `func (pm *PeerManager) HandleType3And4Packet(ctx, receiverID, payload)`. -/
def handleType3And4Packet (pm : PeerManager) (receiverID : SessionIndex)
    (payload : Bytes) : HResult :=
  forwardPacketToReceiver pm receiverID payload

/-- `func (pm *PeerManager) HandlePacket(ctx, addr, payload)`: the classifier.
Type byte dispatch, exact-length gates (148/92/64, at least 32 for type 4),
MAC1 verification for handshake types, then the per-type handler. -/
def handlePacket (H : HashModel) (pm : PeerManager) (addr : String)
    (payload : Bytes) (now : Int) : HResult :=
  if payload.length < 1 then ⟨pm, [], .error (.invalidPacket "insufficient length")⟩
  else
    let typeByte := payload.headI
    if typeByte = 1 then
      if payload.length ≠ 148 then
        ⟨pm, [], .error (.invalidPacket "invalid Type1 packet length")⟩
      else
        match checkMAC1AndGetPublicKey H pm payload with
        | .error e => ⟨pm, [], .error e⟩
        | .ok publicKey => handleType1Packet pm addr (slice payload 4 8) publicKey payload now
    else if typeByte = 2 then
      if payload.length ≠ 92 then
        ⟨pm, [], .error (.invalidPacket "invalid Type2 packet length")⟩
      else
        match checkMAC1AndGetPublicKey H pm payload with
        | .error e => ⟨pm, [], .error e⟩
        | .ok publicKey =>
            handleType2Packet pm addr (slice payload 4 8) (slice payload 8 12)
              publicKey payload now
    else if typeByte = 3 then
      if payload.length ≠ 64 then
        ⟨pm, [], .error (.invalidPacket "invalid Type3 packet length")⟩
      else handleType3And4Packet pm (slice payload 4 8) payload
    else if typeByte = 4 then
      if payload.length < 32 then
        ⟨pm, [], .error (.invalidPacket "invalid Type4 packet length")⟩
      else handleType3And4Packet pm (slice payload 4 8) payload
    else ⟨pm, [], .error (.invalidPacket "unknown packet type")⟩

/-- The first loop of `CleanupPeers`: retain in each list the peers whose age
is below the expiration, dropping a key whose list becomes empty. -/
def cleanPkMap (now expire : Int) :
    List (PublicKey × List Peer) → List (PublicKey × List Peer)
  | [] => []
  | (publicKey, peers) :: rest =>
      let remaining := peers.filter (fun peer => decide (now - peer.timestamp < expire))
      if remaining.isEmpty then cleanPkMap now expire rest
      else (publicKey, remaining) :: cleanPkMap now expire rest

/-- `func (pm *PeerManager) CleanupPeers() error`: reject a non-positive
expiration without touching the state; otherwise sweep both peer maps.
The returned pair is (state after the call, error message if any). -/
def cleanupPeers (pm : PeerManager) (now : Int) : PeerManager × Option String :=
  let expire := pm.peerExpiration
  if expire ≤ 0 then (pm, some "invalid peer expiration duration")
  else
    ({ pm with
        publicKeyToPeersMap := cleanPkMap now expire pm.publicKeyToPeersMap
        receiverToPeerMap :=
          pm.receiverToPeerMap.filter (fun e => decide (now - e.2.timestamp < expire)) },
      none)

/-! ### Concrete fixtures for the end-to-end scenarios of the spec (§8)

An executable `HashModel` instantiation: the 256-bit digest truncates its
input, the keyed MAC truncates its key.  The theorems about the relay logic
are proved for every `HashModel`; these fixtures only serve the concrete
scenario claims and the witnesses, where any computable instantiation that
lets a chosen packet authenticate is adequate. -/

def testHash : HashModel where
  hash256 := fun input => input.take 32
  mac128 := fun key _ => key.take 16

/-- Admitted identity `pkA` of scenario S4. -/
def pkA : PublicKey := List.replicate 32 1

/-- Admitted identity `pkB` of scenario S4. -/
def pkB : PublicKey := List.replicate 32 2

/-- Manager initialised with the single admitted pair `(pkA, pkB)` and a
3-minute-style expiration of 60 time units. -/
def pm0 : PeerManager := newPeerManager testHash [(pkA, pkB)] 60

/-- S4's 148-byte Initiation: type 1, sender index `11 22 33 44`, MAC1 field
equal to `testHash.mac128` of `pkB`'s MAC1 key (so it authenticates as `pkB`
and as nothing else), MAC2 zero. -/
def s4Packet : Bytes :=
  [1, 0, 0, 0] ++ [0x11, 0x22, 0x33, 0x44] ++ List.replicate 108 0
    ++ (wgLabelMac1 ++ List.replicate 8 2) ++ List.replicate 16 0

/-- S4's pre-state: `endpoints_by_pk[pkA]` holds endpoint `10.0.0.1:1111`. -/
def s4Pre : PeerManager :=
  { pm0 with publicKeyToPeersMap := [(pkA, [⟨"10.0.0.1:1111", 50⟩])] }

/-- Variant of S4's pre-state with the endpoint filed under `pkB` instead. -/
def s4PreB : PeerManager :=
  { pm0 with publicKeyToPeersMap := [(pkB, [⟨"10.0.0.1:1111", 50⟩])] }

/-- S5's 92-byte Response: type 2, sender index `55 66 77 88`, receiver index
`11 22 33 44`, MAC1 authenticating as `pkA`, MAC2 zero. -/
def s5Packet : Bytes :=
  [2, 0, 0, 0] ++ [0x55, 0x66, 0x77, 0x88] ++ [0x11, 0x22, 0x33, 0x44]
    ++ List.replicate 48 0 ++ (wgLabelMac1 ++ List.replicate 8 1) ++ List.replicate 16 0

/-- A state in which sender index `11 22 33 44` is already bound to the
endpoint `9.9.9.9:9` observed at time 5. -/
def pmC3 : PeerManager :=
  { pm0 with receiverToPeerMap := [([0x11, 0x22, 0x33, 0x44], ⟨"9.9.9.9:9", 5⟩)] }

/-- A state with one expired (time 10) and one live (time 90) endpoint under
both indices, swept at time 100 with expiration 60. -/
def pmExp : PeerManager :=
  { pm0 with
      receiverToPeerMap := [([1, 1, 1, 1], ⟨"a:1", 10⟩), ([2, 2, 2, 2], ⟨"b:2", 90⟩)]
      publicKeyToPeersMap := [(pkA, [⟨"a:1", 10⟩]), (pkB, [⟨"a:1", 10⟩, ⟨"b:2", 90⟩])] }

/-- A state whose configured expiration is the invalid value 0. -/
def pmBad : PeerManager := { pmExp with peerExpiration := 0 }

/-- Admitted identity `pkC` for the multi-partner configuration below. -/
def pkC : PublicKey := List.replicate 32 3

/-- Admitted identity `pkD` for the multi-partner configuration below. -/
def pkD : PublicKey := List.replicate 32 4

/-- Manager initialised with pairs `(pkA, pkB)`, `(pkA, pkC)`, `(pkD, pkB)`:
`pkA` has the two partners `[pkB, pkC]`, `pkD` the single partner `[pkB]`. -/
def pmMulti : PeerManager := newPeerManager testHash [(pkA, pkB), (pkA, pkC), (pkD, pkB)] 60

/-- A 148-byte Initiation with sender index `09 09 09 09` whose MAC1
authenticates as `pkD` (single partner `pkB`). -/
def c5Packet1 : Bytes :=
  [1, 0, 0, 0] ++ [9, 9, 9, 9] ++ List.replicate 108 0
    ++ (wgLabelMac1 ++ List.replicate 8 4) ++ List.replicate 16 0

/-- A 148-byte Initiation with fresh sender index `08 08 08 08` whose MAC1
authenticates as `pkA` (two partners `[pkB, pkC]`). -/
def c5Packet2 : Bytes :=
  [1, 0, 0, 0] ++ [8, 8, 8, 8] ++ List.replicate 108 0
    ++ (wgLabelMac1 ++ List.replicate 8 1) ++ List.replicate 16 0

/-- State after handling `c5Packet1` from `7.7.7.7:7` at time 50: the
single-partner branch has filed `7.7.7.7:7` under `endpoints_by_pk[pkB]`. -/
def pmMulti1 : PeerManager := (handlePacket testHash pmMulti "7.7.7.7:7" c5Packet1 50).state

/-- State after additionally handling `c5Packet2` from the same source
`7.7.7.7:7` at time 60: a fresh-sid Initiation authenticated as the
two-partner key `pkA`. -/
def pmMulti2 : PeerManager := (handlePacket testHash pmMulti1 "7.7.7.7:7" c5Packet2 60).state

/-! ### Association-list lemmas (Go map semantics) -/

theorem alookup_ainsert {α β : Type} [DecidableEq α] (m : List (α × β)) (k k2 : α) (v : β) :
    alookup (ainsert m k v) k2 = if k2 = k then some v else alookup m k2 := by
  induction m with
  | nil => simp [ainsert, alookup]
  | cons hd t ih =>
      obtain ⟨k3, v3⟩ := hd
      by_cases h3 : k3 = k
      · subst h3
        by_cases h2 : k2 = k3 <;> simp [ainsert, alookup, h2]
      · by_cases h2 : k2 = k3
        · subst h2
          simp [ainsert, h3, alookup, Ne.symm h3]
        · simp [ainsert, h3, alookup, h2, ih]

theorem alookup_ainsert_self {α β : Type} [DecidableEq α] (m : List (α × β)) (k : α) (v : β) :
    alookup (ainsert m k v) k = some v := by
  simp [alookup_ainsert]

theorem alookup_ainsert_ne {α β : Type} [DecidableEq α] (m : List (α × β)) (k k2 : α) (v : β)
    (h : k2 ≠ k) : alookup (ainsert m k v) k2 = alookup m k2 := by
  simp [alookup_ainsert, h]

theorem alookup_some_mem {α β : Type} [DecidableEq α] {m : List (α × β)} {k : α} {v : β}
    (h : alookup m k = some v) : (k, v) ∈ m := by
  induction m with
  | nil => simp [alookup] at h
  | cons hd t ih =>
      obtain ⟨k3, v3⟩ := hd
      by_cases h3 : k = k3
      · subst h3
        simp [alookup] at h
        simp [h]
      · simp [alookup, h3] at h
        exact List.mem_cons_of_mem _ (ih h)

theorem mem_alookup_isSome {α β : Type} [DecidableEq α] {m : List (α × β)} {k : α} {v : β}
    (h : (k, v) ∈ m) : (alookup m k).isSome := by
  induction m with
  | nil => simp at h
  | cons hd t ih =>
      obtain ⟨k3, v3⟩ := hd
      rcases List.mem_cons.mp h with h1 | h1
      · rw [Prod.mk.injEq] at h1
        simp [alookup, h1.1]
      · by_cases h3 : k = k3
        · simp [alookup, h3]
        · simpa [alookup, h3] using ih h1

/-! ### `AppendUniqueValue` lemmas -/

theorem appendUnique_lookup_ne {α β : Type} [DecidableEq α] (m : List (α × List β))
    (k k2 : α) (v : β) (eq : β → β → Bool) (h : k2 ≠ k) :
    alookup (appendUniqueValue m k v eq) k2 = alookup m k2 := by
  unfold appendUniqueValue
  by_cases hany : (((alookup m k).getD []).any fun w => eq w v) = true
  · simp [hany]
  · simp [hany, alookup_ainsert_ne _ _ _ _ h]

theorem appendUnique_self_nonempty {α β : Type} [DecidableEq α] (m : List (α × List β))
    (k : α) (v : β) (eq : β → β → Bool) :
    ∃ l, alookup (appendUniqueValue m k v eq) k = some l ∧ l ≠ [] := by
  unfold appendUniqueValue
  by_cases hany : (((alookup m k).getD []).any fun w => eq w v) = true
  · rw [if_pos hany]
    rcases hlk : alookup m k with _ | cur
    · rw [hlk] at hany; simp at hany
    · rw [hlk, Option.getD_some] at hany
      obtain ⟨w, hw, _⟩ := List.any_eq_true.mp hany
      exact ⟨cur, rfl, by rintro rfl; simp at hw⟩
  · rw [if_neg hany]
    exact ⟨(alookup m k).getD [] ++ [v], alookup_ainsert_self .., by simp⟩

theorem appendUnique_preserves_nonempty {α β : Type} [DecidableEq α]
    (m : List (α × List β)) (k k2 : α) (v : β) (eq : β → β → Bool)
    (h : ∃ l, alookup m k2 = some l ∧ l ≠ []) :
    ∃ l, alookup (appendUniqueValue m k v eq) k2 = some l ∧ l ≠ [] := by
  by_cases hk : k2 = k
  · subst hk; exact appendUnique_self_nonempty m k2 v eq
  · rw [appendUnique_lookup_ne m k k2 v eq hk]; exact h

/-- After `AppendUniqueValue` with the address-comparing `isEqual` of
`AddPeerByPublicKey`, the key's list contains the new peer's address. -/
theorem appendUnique_addr_mem (m : List (PublicKey × List Peer)) (k : PublicKey) (v : Peer) :
    ∃ l, alookup (appendUniqueValue m k v peerEq) k = some l ∧ v.addr ∈ l.map Peer.addr := by
  unfold appendUniqueValue
  by_cases hany : (((alookup m k).getD []).any fun w => peerEq w v) = true
  · rw [if_pos hany]
    rcases hlk : alookup m k with _ | cur
    · rw [hlk] at hany; simp at hany
    · rw [hlk, Option.getD_some] at hany
      obtain ⟨w, hw, hwv⟩ := List.any_eq_true.mp hany
      refine ⟨cur, rfl, ?_⟩
      have : w.addr = v.addr := by simpa [peerEq] using hwv
      exact this ▸ List.mem_map_of_mem Peer.addr hw
  · rw [if_neg hany]
    refine ⟨(alookup m k).getD [] ++ [v], alookup_ainsert_self .., ?_⟩
    simp

/-! ### Branch lemmas for the state-transition operations -/

/-- A known sender index: `AddPeerByPublicKey` re-stores the existing peer. -/
theorem addPeerByPublicKey_known (pm : PeerManager) (addr : String) (senderID : SessionIndex)
    (pk : PublicKey) (now : Int) (peer : Peer)
    (h : alookup pm.receiverToPeerMap senderID = some peer) :
    addPeerByPublicKey pm addr senderID pk now =
      .ok { pm with receiverToPeerMap := ainsert pm.receiverToPeerMap senderID peer } := by
  simp [addPeerByPublicKey, h]

/-- A fresh sender index whose public key has no partner entry: `PeerNotFound`. -/
theorem addPeerByPublicKey_nopair (pm : PeerManager) (addr : String) (senderID : SessionIndex)
    (pk : PublicKey) (now : Int)
    (h1 : alookup pm.receiverToPeerMap senderID = none)
    (h2 : alookup pm.publicKeyToPairPublicKeysMap pk = none) :
    addPeerByPublicKey pm addr senderID pk now = .error (.peerNotFound "paired public key not found") := by
  simp [addPeerByPublicKey, h1, h2]

/-- A fresh sender index with exactly one partner: the fresh peer is appended
(dedup by address) under the partner and stored under the sender index. -/
theorem addPeerByPublicKey_single (pm : PeerManager) (addr : String) (senderID : SessionIndex)
    (pk : PublicKey) (now : Int) (q : PublicKey)
    (h1 : alookup pm.receiverToPeerMap senderID = none)
    (h2 : alookup pm.publicKeyToPairPublicKeysMap pk = some [q]) :
    addPeerByPublicKey pm addr senderID pk now =
      .ok { pm with
              publicKeyToPeersMap :=
                appendUniqueValue pm.publicKeyToPeersMap q ⟨addr, now⟩ peerEq
              receiverToPeerMap :=
                ainsert pm.receiverToPeerMap senderID ⟨addr, now⟩ } := by
  simp [addPeerByPublicKey, h1, h2]

/-- A fresh sender index with zero or several partners: only the sender-index
entry is written. -/
theorem addPeerByPublicKey_multi (pm : PeerManager) (addr : String) (senderID : SessionIndex)
    (pk : PublicKey) (now : Int) (ps : List PublicKey)
    (h1 : alookup pm.receiverToPeerMap senderID = none)
    (h2 : alookup pm.publicKeyToPairPublicKeysMap pk = some ps)
    (h3 : ps.length ≠ 1) :
    addPeerByPublicKey pm addr senderID pk now =
      .ok { pm with receiverToPeerMap := ainsert pm.receiverToPeerMap senderID ⟨addr, now⟩ } := by
  match ps with
  | [] => simp [addPeerByPublicKey, h1, h2]
  | [q] => exact absurd rfl h3
  | a :: b :: t => simp [addPeerByPublicKey, h1, h2]

/-- `AddPeerBySenderID` with a known sender index is a no-op. -/
theorem addPeerBySenderID_known (pm : PeerManager) (addr : String) (senderID : SessionIndex)
    (now : Int) (peer : Peer) (h : alookup pm.receiverToPeerMap senderID = some peer) :
    addPeerBySenderID pm addr senderID now = pm := by
  simp [addPeerBySenderID, h]

/-- `AddPeerBySenderID` with a fresh sender index stores a fresh peer. -/
theorem addPeerBySenderID_fresh (pm : PeerManager) (addr : String) (senderID : SessionIndex)
    (now : Int) (h : alookup pm.receiverToPeerMap senderID = none) :
    addPeerBySenderID pm addr senderID now =
      { pm with receiverToPeerMap := ainsert pm.receiverToPeerMap senderID ⟨addr, now⟩ } := by
  simp [addPeerBySenderID, h]

/-- `ForwardPacketToReceiver` on an unknown receiver index: `PeerNotFound`. -/
theorem forwardPacketToReceiver_none (pm : PeerManager) (receiverID : SessionIndex)
    (payload : Bytes) (h : alookup pm.receiverToPeerMap receiverID = none) :
    forwardPacketToReceiver pm receiverID payload =
      ⟨pm, [], .error (.peerNotFound "no peer found for receiver ID")⟩ := by
  simp [forwardPacketToReceiver, h]

/-- `ForwardPacketToReceiver` on a known receiver index sends one datagram. -/
theorem forwardPacketToReceiver_some (pm : PeerManager) (receiverID : SessionIndex)
    (payload : Bytes) (peer : Peer) (h : alookup pm.receiverToPeerMap receiverID = some peer) :
    forwardPacketToReceiver pm receiverID payload = ⟨pm, [(peer.addr, payload)], .ok ()⟩ := by
  simp [forwardPacketToReceiver, h]

/-- `CheckMAC1AndGetPublicKey` fails only with `AuthenticationFailed`. -/
theorem checkMAC1_error_shape (H : HashModel) (pm : PeerManager) (payload : Bytes)
    (e : PMError) (h : checkMAC1AndGetPublicKey H pm payload = .error e) :
    e = .authenticationFailed "mac1 verification failed" := by
  unfold checkMAC1AndGetPublicKey at h
  rcases hf : pm.publicKeyToMac1KeyMap.find? (fun e => mac1Matches H payload e.2) with _ | ent
  · rw [hf] at h
    simpa using h.symm
  · rw [hf] at h
    simp at h

/-- `AddPeerByPublicKey` fails only with `PeerNotFound`, and success leaves
the two configuration maps and the expiration untouched. -/
theorem addPeerByPublicKey_shape (pm : PeerManager) (addr : String) (senderID : SessionIndex)
    (pk : PublicKey) (now : Int) :
    (∀ e, addPeerByPublicKey pm addr senderID pk now = .error e →
        e = .peerNotFound "paired public key not found")
    ∧ (∀ pm2, addPeerByPublicKey pm addr senderID pk now = .ok pm2 →
        pm2.publicKeyToMac1KeyMap = pm.publicKeyToMac1KeyMap
        ∧ pm2.publicKeyToPairPublicKeysMap = pm.publicKeyToPairPublicKeysMap
        ∧ pm2.peerExpiration = pm.peerExpiration) := by
  constructor
  · intro e h
    unfold addPeerByPublicKey at h
    split at h
    · simp at h
    · split at h
      · simpa using h.symm
      · simp at h
  · intro pm2 h
    unfold addPeerByPublicKey at h
    split at h
    · rw [Except.ok.injEq] at h
      subst h
      exact ⟨rfl, rfl, rfl⟩
    · split at h
      · simp at h
      · rw [Except.ok.injEq] at h
        subst h
        split <;> exact ⟨rfl, rfl, rfl⟩

/-- `HandleType1Packet` when the peer-recording step fails. -/
theorem handleType1_err (pm : PeerManager) (addr : String) (senderID : SessionIndex)
    (pk : PublicKey) (payload : Bytes) (now : Int) (e : PMError)
    (h : addPeerByPublicKey pm addr senderID pk now = .error e) :
    handleType1Packet pm addr senderID pk payload now = ⟨pm, [], .error e⟩ := by
  simp [handleType1Packet, h]

/-- `HandleType1Packet` when recording succeeds and the authenticated key has
observed endpoints: broadcast to every one of them. -/
theorem handleType1_ok_found (pm pm2 : PeerManager) (addr : String) (senderID : SessionIndex)
    (pk : PublicKey) (payload : Bytes) (now : Int) (peers : List Peer)
    (h : addPeerByPublicKey pm addr senderID pk now = .ok pm2)
    (h2 : alookup pm2.publicKeyToPeersMap pk = some peers) :
    handleType1Packet pm addr senderID pk payload now =
      ⟨pm2, peers.map (fun peer => (peer.addr, payload)), .ok ()⟩ := by
  simp [handleType1Packet, h, getPublicKeyToPeers, h2]

/-- `HandleType1Packet` when recording succeeds but the authenticated key has
no observed endpoints: nothing is sent. -/
theorem handleType1_ok_notfound (pm pm2 : PeerManager) (addr : String) (senderID : SessionIndex)
    (pk : PublicKey) (payload : Bytes) (now : Int)
    (h : addPeerByPublicKey pm addr senderID pk now = .ok pm2)
    (h2 : alookup pm2.publicKeyToPeersMap pk = none) :
    handleType1Packet pm addr senderID pk payload now = ⟨pm2, [], .ok ()⟩ := by
  simp [handleType1Packet, h, getPublicKeyToPeers, h2]

/-- Unfolding `HandlePacket` on a type-1 packet of the correct length whose
MAC1 check succeeds. -/
theorem handlePacket_type1_ok (H : HashModel) (pm : PeerManager) (addr : String)
    (payload : Bytes) (now : Int) (pk : PublicKey)
    (h1 : payload.headI = 1) (h2 : payload.length = 148)
    (hpk : checkMAC1AndGetPublicKey H pm payload = .ok pk) :
    handlePacket H pm addr payload now =
      handleType1Packet pm addr (slice payload 4 8) pk payload now := by
  simp [handlePacket, h1, h2, hpk]

/-- Unfolding `HandlePacket` on a type-1 packet of the correct length whose
MAC1 check fails. -/
theorem handlePacket_type1_err (H : HashModel) (pm : PeerManager) (addr : String)
    (payload : Bytes) (now : Int) (e : PMError)
    (h1 : payload.headI = 1) (h2 : payload.length = 148)
    (hpk : checkMAC1AndGetPublicKey H pm payload = .error e) :
    handlePacket H pm addr payload now = ⟨pm, [], .error e⟩ := by
  simp [handlePacket, h1, h2, hpk]

/-- Unfolding `HandlePacket` on a type-2 packet of the correct length whose
MAC1 check succeeds. -/
theorem handlePacket_type2_ok (H : HashModel) (pm : PeerManager) (addr : String)
    (payload : Bytes) (now : Int) (pk : PublicKey)
    (h1 : payload.headI = 2) (h2 : payload.length = 92)
    (hpk : checkMAC1AndGetPublicKey H pm payload = .ok pk) :
    handlePacket H pm addr payload now =
      handleType2Packet pm addr (slice payload 4 8) (slice payload 8 12) pk payload now := by
  simp [handlePacket, h1, h2, hpk]

/-- Unfolding `HandlePacket` on a type-2 packet of the correct length whose
MAC1 check fails. -/
theorem handlePacket_type2_err (H : HashModel) (pm : PeerManager) (addr : String)
    (payload : Bytes) (now : Int) (e : PMError)
    (h1 : payload.headI = 2) (h2 : payload.length = 92)
    (hpk : checkMAC1AndGetPublicKey H pm payload = .error e) :
    handlePacket H pm addr payload now = ⟨pm, [], .error e⟩ := by
  simp [handlePacket, h1, h2, hpk]

/-- Every list surviving the `endpoints_by_pk` sweep is non-empty and holds
only unexpired peers. -/
theorem alookup_cleanPkMap (now expire : Int) (m : List (PublicKey × List Peer))
    (pk : PublicKey) (l : List Peer)
    (h : alookup (cleanPkMap now expire m) pk = some l) :
    l ≠ [] ∧ ∀ pe ∈ l, now - pe.timestamp < expire := by
  induction m with
  | nil => simp [cleanPkMap, alookup] at h
  | cons hd t ih =>
      obtain ⟨k3, peers⟩ := hd
      by_cases he : (peers.filter (fun peer => decide (now - peer.timestamp < expire))).isEmpty
      · rw [cleanPkMap, if_pos he] at h
        exact ih h
      · rw [cleanPkMap, if_neg he] at h
        by_cases hk : pk = k3
        · rw [alookup, if_pos hk] at h
          rw [Option.some.injEq] at h
          subst h
          refine ⟨fun hnil => he (by simp [hnil]), fun pe hm => ?_⟩
          exact of_decide_eq_true (List.mem_filter.mp hm).2
        · rw [alookup, if_neg hk] at h
          exact ih h

/-- `HandleType1Packet` returns ok or `PeerNotFound`, never a parse or
authentication error. -/
theorem handleType1_result_shape (pm : PeerManager) (addr : String) (senderID : SessionIndex)
    (pk : PublicKey) (payload : Bytes) (now : Int) :
    (handleType1Packet pm addr senderID pk payload now).result = .ok ()
    ∨ ∃ d, (handleType1Packet pm addr senderID pk payload now).result = .error (.peerNotFound d) := by
  cases haddr : addPeerByPublicKey pm addr senderID pk now with
  | error e =>
      have he := (addPeerByPublicKey_shape pm addr senderID pk now).1 e haddr
      rw [handleType1_err _ _ _ _ _ _ _ haddr, he]
      exact Or.inr ⟨_, rfl⟩
  | ok pm2 =>
      rcases h2 : alookup pm2.publicKeyToPeersMap pk with _ | peers
      · rw [handleType1_ok_notfound _ _ _ _ _ _ _ haddr h2]
        exact Or.inl rfl
      · rw [handleType1_ok_found _ _ _ _ _ _ _ _ haddr h2]
        exact Or.inl rfl

/-- `ForwardPacketToReceiver` returns ok or `PeerNotFound`. -/
theorem forwardPacketToReceiver_result_shape (pm : PeerManager) (receiverID : SessionIndex)
    (payload : Bytes) :
    (forwardPacketToReceiver pm receiverID payload).result = .ok ()
    ∨ ∃ d, (forwardPacketToReceiver pm receiverID payload).result = .error (.peerNotFound d) := by
  rcases hf : alookup pm.receiverToPeerMap receiverID with _ | peer
  · rw [forwardPacketToReceiver_none _ _ _ hf]
    exact Or.inr ⟨_, rfl⟩
  · rw [forwardPacketToReceiver_some _ _ _ _ hf]
    exact Or.inl rfl

/-- `HandleType2Packet` returns ok or `PeerNotFound`. -/
theorem handleType2_result_shape (pm : PeerManager) (addr : String)
    (senderID receiverID : SessionIndex) (pk : PublicKey) (payload : Bytes) (now : Int) :
    (handleType2Packet pm addr senderID receiverID pk payload now).result = .ok ()
    ∨ ∃ d, (handleType2Packet pm addr senderID receiverID pk payload now).result
        = .error (.peerNotFound d) :=
  forwardPacketToReceiver_result_shape (addPeerBySenderID pm addr senderID now) receiverID payload

/-- Unfolding `HandlePacket` on a type-3 packet of the correct length. -/
theorem handlePacket_type3 (H : HashModel) (pm : PeerManager) (addr : String)
    (payload : Bytes) (now : Int) (h1 : payload.headI = 3) (h2 : payload.length = 64) :
    handlePacket H pm addr payload now = handleType3And4Packet pm (slice payload 4 8) payload := by
  simp [handlePacket, h1, h2]

/-- Unfolding `HandlePacket` on a type-4 packet of sufficient length. -/
theorem handlePacket_type4 (H : HashModel) (pm : PeerManager) (addr : String)
    (payload : Bytes) (now : Int) (h1 : payload.headI = 4) (h2 : 32 ≤ payload.length) :
    handlePacket H pm addr payload now = handleType3And4Packet pm (slice payload 4 8) payload := by
  simp [handlePacket, h1, show ¬ payload.length < 1 by omega, show ¬ payload.length < 32 by omega]

/-- `ForwardPacketToReceiver` never changes the state. -/
theorem forwardPacketToReceiver_state (pm : PeerManager) (receiverID : SessionIndex)
    (payload : Bytes) : (forwardPacketToReceiver pm receiverID payload).state = pm := by
  rcases hf : alookup pm.receiverToPeerMap receiverID with _ | peer
  · rw [forwardPacketToReceiver_none _ _ _ hf]
  · rw [forwardPacketToReceiver_some _ _ _ _ hf]

/-! ### Claim theorems -/

set_option maxRecDepth 1000000

/-- C1 counterexample: in scenario S4 exactly as stated — pair `(pkA, pkB)`
configured, `endpoints_by_pk[pkA]` pre-populated with `10.0.0.1:1111`, a valid
148-byte Initiation from `1.2.3.4:5000` with sender index `11 22 33 44` whose
MAC1 authenticates as `pkB` — **no packet is sent at all** (in particular none
to `10.0.0.1:1111`): `HandleType1Packet` broadcasts to
`PublicKeyToPeersMap[pkB]` (the MAC1-authenticated key), which is empty, not
to `PublicKeyToPeersMap[pkA]`. -/
theorem s4_broadcast_counterexample :
    (handlePacket testHash s4Pre "1.2.3.4:5000" s4Packet 100).sends = []
    ∧ ¬ ∃ q, ("10.0.0.1:1111", q) ∈ (handlePacket testHash s4Pre "1.2.3.4:5000" s4Packet 100).sends := by
  have h : (handlePacket testHash s4Pre "1.2.3.4:5000" s4Packet 100).sends = [] := by decide
  exact ⟨h, by simp [h]⟩

/-- C1 amended: in scenario S4, handling the Initiation sends nothing (the
broadcast reads `endpoints_by_pk[pkB]`, the MAC1-authenticated key, which is
empty); `endpoint_by_sid[11223344]` maps to the new endpoint `1.2.3.4:5000`
and `endpoints_by_pk[pkA]` contains `1.2.3.4:5000`.  If `10.0.0.1:1111` is
instead pre-populated under `pkB`, the packet is sent to `10.0.0.1:1111`. -/
theorem s4_broadcast_amended :
    (handlePacket testHash s4Pre "1.2.3.4:5000" s4Packet 100).sends = []
    ∧ alookup (handlePacket testHash s4Pre "1.2.3.4:5000" s4Packet 100).state.receiverToPeerMap
        [0x11, 0x22, 0x33, 0x44] = some ⟨"1.2.3.4:5000", 100⟩
    ∧ alookup (handlePacket testHash s4Pre "1.2.3.4:5000" s4Packet 100).state.publicKeyToPeersMap
        pkA = some [⟨"10.0.0.1:1111", 50⟩, ⟨"1.2.3.4:5000", 100⟩]
    ∧ (handlePacket testHash s4PreB "1.2.3.4:5000" s4Packet 100).sends
        = [("10.0.0.1:1111", s4Packet)] :=
  ⟨by decide, by decide, by decide, by decide⟩

/-- C3 counterexample: with sender index `11 22 33 44` already bound to the
endpoint `9.9.9.9:9` observed at time 5, handling an authenticated Initiation
with that sender index at time 100 leaves the entry's `last_seen` at 5 — the
claim's "updates that entry's last_seen to now" is false (the source re-stores
the existing `*Peer` without touching its `Timestamp`). -/
theorem known_sid_counterexample :
    alookup (handlePacket testHash pmC3 "1.2.3.4:5000" s4Packet 100).state.receiverToPeerMap
      [0x11, 0x22, 0x33, 0x44] = some ⟨"9.9.9.9:9", 5⟩
    ∧ (5 : Int) ≠ 100 :=
  ⟨by decide, by decide⟩

/-- C3 amended: for every authenticated Initiation whose sender index already
has an entry in `endpoint_by_sid`, handling the packet leaves that entry
entirely unchanged — neither its `addr` nor its `last_seen` is replaced, even
when the packet's source address differs from the stored address. -/
theorem known_sid_entry_unchanged (H : HashModel) (pm : PeerManager) (addr : String)
    (p : Bytes) (now : Int) (pe : Peer)
    (htype : p.headI = 1) (hlen : p.length = 148)
    (hmac : ∃ pk, checkMAC1AndGetPublicKey H pm p = .ok pk)
    (hsid : alookup pm.receiverToPeerMap (slice p 4 8) = some pe) :
    alookup (handlePacket H pm addr p now).state.receiverToPeerMap (slice p 4 8) = some pe := by
  obtain ⟨pk, hpk⟩ := hmac
  rw [handlePacket_type1_ok H pm addr p now pk htype hlen hpk]
  have hadd := addPeerByPublicKey_known pm addr (slice p 4 8) pk now pe hsid
  rcases h2 : alookup (pm.publicKeyToPeersMap) pk with _ | peers
  · rw [handleType1_ok_notfound _ _ _ _ _ _ _ hadd h2]
    exact alookup_ainsert_self ..
  · rw [handleType1_ok_found _ _ _ _ _ _ _ _ hadd h2]
    exact alookup_ainsert_self ..

/-- C3 amended, witness: the concrete state of the counterexample, where the
unchanged entry is exactly the pre-existing one. -/
theorem known_sid_entry_unchanged_witness :
    alookup (handlePacket testHash pmC3 "1.2.3.4:5000" s4Packet 100).state.receiverToPeerMap
      (slice s4Packet 4 8) = some ⟨"9.9.9.9:9", 5⟩ :=
  known_sid_entry_unchanged testHash pmC3 "1.2.3.4:5000" s4Packet 100 ⟨"9.9.9.9:9", 5⟩
    (by decide) (by decide) ⟨pkB, by decide⟩ (by decide)

/-- C7: for every byte slice `p`, `HandlePacket` returns `InvalidPacket`
exactly when `p` is zero-length, its first byte is not in {1,2,3,4}, or its
length violates the per-type rule: type 1 requires exactly 148 bytes, type 2
exactly 92, type 3 exactly 64, and type 4 at least 32. -/
theorem classifier_invalidPacket_iff (H : HashModel) (pm : PeerManager) (addr : String)
    (p : Bytes) (now : Int) :
    (∃ d, (handlePacket H pm addr p now).result = .error (.invalidPacket d)) ↔
      (p.length = 0
        ∨ (p.headI ≠ 1 ∧ p.headI ≠ 2 ∧ p.headI ≠ 3 ∧ p.headI ≠ 4)
        ∨ (p.headI = 1 ∧ p.length ≠ 148)
        ∨ (p.headI = 2 ∧ p.length ≠ 92)
        ∨ (p.headI = 3 ∧ p.length ≠ 64)
        ∨ (p.headI = 4 ∧ p.length < 32)) := by
  by_cases h0 : p.length < 1
  · have hp : p = [] := List.eq_nil_of_length_eq_zero (by omega)
    subst hp
    simp [handlePacket]
  · have h00 : p.length ≠ 0 := by omega
    have hne : p ≠ [] := fun hh => h00 (by simp [hh])
    by_cases h1 : p.headI = 1
    · by_cases hl1 : p.length = 148
      · cases hpk : checkMAC1AndGetPublicKey H pm p with
        | error e =>
            rw [handlePacket_type1_err H pm addr p now e h1 hl1 hpk,
              checkMAC1_error_shape H pm p e hpk]
            simp [h1, hl1, hne]
        | ok pk =>
            rw [handlePacket_type1_ok H pm addr p now pk h1 hl1 hpk]
            rcases handleType1_result_shape pm addr (slice p 4 8) pk p now with hs | ⟨d2, hs⟩ <;>
              rw [hs] <;> simp [h1, hl1, hne]
      · simp [handlePacket, h0, h1, hl1, h00]
    · by_cases h2 : p.headI = 2
      · by_cases hl2 : p.length = 92
        · cases hpk : checkMAC1AndGetPublicKey H pm p with
          | error e =>
              rw [handlePacket_type2_err H pm addr p now e h2 hl2 hpk,
                checkMAC1_error_shape H pm p e hpk]
              simp [h2, hl2, hne]
          | ok pk =>
              rw [handlePacket_type2_ok H pm addr p now pk h2 hl2 hpk]
              rcases handleType2_result_shape pm addr (slice p 4 8) (slice p 8 12) pk p now with
                hs | ⟨d2, hs⟩ <;> rw [hs] <;> simp [h2, hl2, hne]
        · simp [handlePacket, h0, h1, h2, hl2, h00]
      · by_cases h3 : p.headI = 3
        · by_cases hl3 : p.length = 64
          · rw [handlePacket_type3 H pm addr p now h3 hl3]
            unfold handleType3And4Packet
            rcases forwardPacketToReceiver_result_shape pm (slice p 4 8) p with hs | ⟨d2, hs⟩ <;>
              rw [hs] <;> simp [h3, hl3, hne]
          · simp [handlePacket, h0, h1, h2, h3, hl3, h00]
        · by_cases h4 : p.headI = 4
          · by_cases hl4 : p.length < 32
            · simp [handlePacket, h0, h1, h2, h3, h4, hl4, h00]
            · rw [handlePacket_type4 H pm addr p now h4 (by omega)]
              unfold handleType3And4Packet
              rcases forwardPacketToReceiver_result_shape pm (slice p 4 8) p with hs | ⟨d2, hs⟩ <;>
                rw [hs] <;> simp [h4, hl4, hne]
          · simp [handlePacket, h0, h1, h2, h3, h4, h00]

/-- C8: every packet whose handling returns `InvalidPacket` or
`AuthenticationFailed` leaves the whole `PeerManager` (hence all four
mappings of the Peer Association Table) exactly as it was. -/
theorem rejected_packet_no_mutation (H : HashModel) (pm : PeerManager) (addr : String)
    (p : Bytes) (now : Int) (d : String)
    (h : (handlePacket H pm addr p now).result = .error (.invalidPacket d)
       ∨ (handlePacket H pm addr p now).result = .error (.authenticationFailed d)) :
    (handlePacket H pm addr p now).state = pm := by
  by_cases h0 : p.length < 1
  · simp [handlePacket, h0]
  · by_cases h1 : p.headI = 1
    · by_cases hl1 : p.length = 148
      · cases hpk : checkMAC1AndGetPublicKey H pm p with
        | error e => rw [handlePacket_type1_err H pm addr p now e h1 hl1 hpk]
        | ok pk =>
            rw [handlePacket_type1_ok H pm addr p now pk h1 hl1 hpk] at h ⊢
            rcases handleType1_result_shape pm addr (slice p 4 8) pk p now with hs | ⟨d2, hs⟩ <;>
              rcases h with h | h <;> rw [hs] at h <;> simp at h
      · simp [handlePacket, h0, h1, hl1]
    · by_cases h2 : p.headI = 2
      · by_cases hl2 : p.length = 92
        · cases hpk : checkMAC1AndGetPublicKey H pm p with
          | error e => rw [handlePacket_type2_err H pm addr p now e h2 hl2 hpk]
          | ok pk =>
              rw [handlePacket_type2_ok H pm addr p now pk h2 hl2 hpk] at h ⊢
              rcases handleType2_result_shape pm addr (slice p 4 8) (slice p 8 12) pk p now with
                hs | ⟨d2, hs⟩ <;> rcases h with h | h <;> rw [hs] at h <;> simp at h
        · simp [handlePacket, h0, h1, h2, hl2]
      · by_cases h3 : p.headI = 3
        · by_cases hl3 : p.length = 64
          · rw [handlePacket_type3 H pm addr p now h3 hl3]
            exact forwardPacketToReceiver_state pm (slice p 4 8) p
          · simp [handlePacket, h0, h1, h2, h3, hl3]
        · by_cases h4 : p.headI = 4
          · by_cases hl4 : p.length < 32
            · simp [handlePacket, h0, h1, h2, h3, h4, hl4]
            · rw [handlePacket_type4 H pm addr p now h4 (by omega)]
              exact forwardPacketToReceiver_state pm (slice p 4 8) p
          · simp [handlePacket, h0, h1, h2, h3, h4]

/-- C8 witness: scenario S2's 101-byte type-1 packet is rejected as
`InvalidPacket` and the table is untouched. -/
theorem rejected_packet_no_mutation_witness :
    (handlePacket testHash s4Pre "1.2.3.4:5000" (1 :: List.replicate 100 0) 100).state = s4Pre :=
  rejected_packet_no_mutation testHash s4Pre "1.2.3.4:5000" (1 :: List.replicate 100 0) 100
    "invalid Type1 packet length" (Or.inl (by decide))

/-- C2: for a handshake packet `p` (length 148 or 92) and a table whose
stored MAC1 keys are the ones derived as `BLAKE2s-256("mac1----" ‖ pk)` (as
established at initialization), the authenticator accepts `p` iff some
admitted public key's MAC1 key `k` satisfies
`BLAKE2s-128(key=k, data=p[0..len−32]) = p[len−32..len−16]`; any key it
returns is admitted and matches; and if no admitted key matches it rejects
with `AuthenticationFailed`. -/
theorem mac1_authenticator_spec (H : HashModel) (pm : PeerManager) (p : Bytes)
    (hlen : p.length = 148 ∨ p.length = 92)
    (hwf : ∀ e ∈ pm.publicKeyToMac1KeyMap, e.2 = calculateMac1Key H e.1) :
    ((∃ pk, (alookup pm.publicKeyToMac1KeyMap pk).isSome
        ∧ H.mac128 (calculateMac1Key H pk) (p.take (p.length - 32))
            = slice p (p.length - 32) (p.length - 16))
      ↔ ∃ pk, checkMAC1AndGetPublicKey H pm p = .ok pk)
    ∧ (∀ pk, checkMAC1AndGetPublicKey H pm p = .ok pk →
        (alookup pm.publicKeyToMac1KeyMap pk).isSome
        ∧ H.mac128 (calculateMac1Key H pk) (p.take (p.length - 32))
            = slice p (p.length - 32) (p.length - 16))
    ∧ ((¬ ∃ pk, (alookup pm.publicKeyToMac1KeyMap pk).isSome
          ∧ H.mac128 (calculateMac1Key H pk) (p.take (p.length - 32))
              = slice p (p.length - 32) (p.length - 16)) →
        checkMAC1AndGetPublicKey H pm p
          = .error (.authenticationFailed "mac1 verification failed")) := by
  have hmm : ∀ k : Mac1Key, mac1Matches H p k = true ↔
      H.mac128 k (p.take (p.length - 32)) = slice p (p.length - 32) (p.length - 16) := by
    intro k
    simp only [mac1Matches]
    rw [show p.length - 16 - 16 = p.length - 32 from by omega]
    simp
  have hok : ∀ pk, checkMAC1AndGetPublicKey H pm p = .ok pk →
      (alookup pm.publicKeyToMac1KeyMap pk).isSome
      ∧ H.mac128 (calculateMac1Key H pk) (p.take (p.length - 32))
          = slice p (p.length - 32) (p.length - 16) := by
    intro pk hpk
    unfold checkMAC1AndGetPublicKey at hpk
    rcases hf : pm.publicKeyToMac1KeyMap.find? (fun e => mac1Matches H p e.2) with _ | ent
    · rw [hf] at hpk
      simp at hpk
    · rw [hf] at hpk
      rw [Except.ok.injEq] at hpk
      subst hpk
      have hmem := List.mem_of_find?_eq_some hf
      have hp := List.find?_some hf
      have hw := hwf ent hmem
      refine ⟨mem_alookup_isSome (show (ent.1, ent.2) ∈ _ by simpa using hmem), ?_⟩
      rw [← hw]
      exact (hmm ent.2).mp hp
  refine ⟨⟨?_, ?_⟩, hok, ?_⟩
  · rintro ⟨pk, hsome, hmac⟩
    obtain ⟨k, hk⟩ := Option.isSome_iff_exists.mp hsome
    have hmem : (pk, k) ∈ pm.publicKeyToMac1KeyMap := alookup_some_mem hk
    have hk2 : k = calculateMac1Key H pk := hwf (pk, k) hmem
    have hfs : ((pm.publicKeyToMac1KeyMap).find? (fun e => mac1Matches H p e.2)).isSome := by
      rw [List.find?_isSome]
      refine ⟨(pk, k), hmem, ?_⟩
      show mac1Matches H p k = true
      rw [hk2]
      exact (hmm _).mpr hmac
    obtain ⟨ent, hent⟩ := Option.isSome_iff_exists.mp hfs
    exact ⟨ent.1, by unfold checkMAC1AndGetPublicKey; rw [hent]⟩
  · rintro ⟨pk, hpk⟩
    obtain ⟨hsome, hmac⟩ := hok pk hpk
    exact ⟨pk, hsome, hmac⟩
  · intro hnone
    unfold checkMAC1AndGetPublicKey
    rcases hf : pm.publicKeyToMac1KeyMap.find? (fun e => mac1Matches H p e.2) with _ | ent
    · rw [hf]
    · exfalso
      apply hnone
      have hmem := List.mem_of_find?_eq_some hf
      have hp := List.find?_some hf
      have hw := hwf ent hmem
      refine ⟨ent.1, mem_alookup_isSome (show (ent.1, ent.2) ∈ _ by simpa using hmem), ?_⟩
      rw [← hw]
      exact (hmm ent.2).mp hp

/-- C2 witness: `pm0`'s table satisfies the key-derivation hypothesis by
computation, `s4Packet` authenticates, and the theorem yields that the
returned key `pkB` is admitted and matches. -/
theorem mac1_authenticator_spec_witness :
    (alookup pm0.publicKeyToMac1KeyMap pkB).isSome
    ∧ testHash.mac128 (calculateMac1Key testHash pkB) (s4Packet.take (s4Packet.length - 32))
        = slice s4Packet (s4Packet.length - 32) (s4Packet.length - 16) :=
  (mac1_authenticator_spec testHash pm0 s4Packet (Or.inl (by decide)) (by decide)).2.1
    pkB (by decide)

/-- C9: the expiration sweep.  With `peer_expiration ≤ 0`, `CleanupPeers`
returns an error and leaves the state untouched.  Otherwise it succeeds and
afterwards no endpoint with `now − last_seen ≥ peer_expiration` remains in
any `endpoints_by_pk` list or in `endpoint_by_sid`, and no public key maps to
an empty endpoint list (keys whose lists empty out are removed). -/
theorem cleanup_spec (pm : PeerManager) (now : Int) :
    (pm.peerExpiration ≤ 0 →
      cleanupPeers pm now = (pm, some "invalid peer expiration duration"))
    ∧ (0 < pm.peerExpiration →
        (cleanupPeers pm now).2 = none
        ∧ (∀ pk l, alookup (cleanupPeers pm now).1.publicKeyToPeersMap pk = some l →
            l ≠ [] ∧ ∀ pe ∈ l, now - pe.timestamp < pm.peerExpiration)
        ∧ (∀ rid pe, alookup (cleanupPeers pm now).1.receiverToPeerMap rid = some pe →
            now - pe.timestamp < pm.peerExpiration)) := by
  constructor
  · intro h
    simp [cleanupPeers, h]
  · intro h
    have hne : ¬ pm.peerExpiration ≤ 0 := by omega
    refine ⟨by simp [cleanupPeers, hne], ?_, ?_⟩
    · intro pk l hl
      rw [show (cleanupPeers pm now).1.publicKeyToPeersMap
            = cleanPkMap now pm.peerExpiration pm.publicKeyToPeersMap from by
          simp [cleanupPeers, hne]] at hl
      exact alookup_cleanPkMap _ _ _ _ _ hl
    · intro rid pe hp
      rw [show (cleanupPeers pm now).1.receiverToPeerMap
            = pm.receiverToPeerMap.filter
                (fun e => decide (now - e.2.timestamp < pm.peerExpiration)) from by
          simp [cleanupPeers, hne]] at hp
      exact of_decide_eq_true (List.mem_filter.mp (alookup_some_mem hp)).2

/-- C9 witness: sweeping `pmExp` (one expired, one live endpoint) at time 100
succeeds with the guarantees, and sweeping `pmBad` (expiration 0) errors
without mutation. -/
theorem cleanup_spec_witness :
    cleanupPeers pmBad 100 = (pmBad, some "invalid peer expiration duration")
    ∧ ((cleanupPeers pmExp 100).2 = none
      ∧ (∀ pk l, alookup (cleanupPeers pmExp 100).1.publicKeyToPeersMap pk = some l →
          l ≠ [] ∧ ∀ pe ∈ l, 100 - pe.timestamp < pmExp.peerExpiration)
      ∧ (∀ rid pe, alookup (cleanupPeers pmExp 100).1.receiverToPeerMap rid = some pe →
          100 - pe.timestamp < pmExp.peerExpiration)) :=
  ⟨(cleanup_spec pmBad 100).1 (by decide), (cleanup_spec pmExp 100).2 (by decide)⟩

/-- The state after `HandleType1Packet` is exactly the state left by its
`AddPeerByPublicKey` step (forwarding sends but does not mutate). -/
theorem handleType1_state (pm pm2 : PeerManager) (addr : String) (senderID : SessionIndex)
    (pk : PublicKey) (payload : Bytes) (now : Int)
    (h : addPeerByPublicKey pm addr senderID pk now = .ok pm2) :
    (handleType1Packet pm addr senderID pk payload now).state = pm2 := by
  rcases h2 : alookup pm2.publicKeyToPeersMap pk with _ | peers
  · rw [handleType1_ok_notfound _ _ _ _ _ _ _ h h2]
  · rw [handleType1_ok_found _ _ _ _ _ _ _ _ h h2]

/-- On a fresh sender index with a configured partner list, a successful
`AddPeerByPublicKey` always stores the fresh peer under the sender index,
whatever the partner count. -/
theorem addPeerByPublicKey_fresh_rid (pm pm2 : PeerManager) (addr : String)
    (sid : SessionIndex) (pk : PublicKey) (now : Int) (ps : List PublicKey)
    (hsid : alookup pm.receiverToPeerMap sid = none)
    (hpair : alookup pm.publicKeyToPairPublicKeysMap pk = some ps)
    (h : addPeerByPublicKey pm addr sid pk now = .ok pm2) :
    pm2.receiverToPeerMap = ainsert pm.receiverToPeerMap sid ⟨addr, now⟩ := by
  by_cases h1 : ps.length = 1
  · obtain ⟨q, rfl⟩ := List.length_eq_one.mp h1
    rw [addPeerByPublicKey_single pm addr sid pk now q hsid hpair, Except.ok.injEq] at h
    subst h
    rfl
  · rw [addPeerByPublicKey_multi pm addr sid pk now ps hsid hpair h1, Except.ok.injEq] at h
    subst h
    rfl

/-- The invariant claimed in C4: every `endpoint_by_sid` entry belongs to
some `endpoints_by_pk` list. -/
def sidReachable (pm : PeerManager) : Prop :=
  ∀ sid pe, alookup pm.receiverToPeerMap sid = some pe →
    ∃ pk l, alookup pm.publicKeyToPeersMap pk = some l ∧ pe ∈ l

/-- C4 counterexample: the invariant holds in the freshly initialised `pm0`
but is broken by a single `AddPeerBySenderID` (the response-handling path),
which creates a session-index entry while `endpoints_by_pk` stays empty —
so it is not preserved by every operation on the table. -/
theorem sid_reachability_counterexample :
    sidReachable pm0
    ∧ ¬ sidReachable (addPeerBySenderID pm0 "5.6.7.8:6000" [0x55, 0x66, 0x77, 0x88] 100) := by
  constructor
  · intro sid pe h
    rw [show pm0.receiverToPeerMap = [] from by decide] at h
    simp [alookup] at h
  · intro h
    obtain ⟨pk, l, hl, _⟩ :=
      h [0x55, 0x66, 0x77, 0x88] ⟨"5.6.7.8:6000", 100⟩ (by decide)
    rw [show (addPeerBySenderID pm0 "5.6.7.8:6000" [0x55, 0x66, 0x77, 0x88] 100).publicKeyToPeersMap
          = [] from by decide] at hl
    simp [alookup] at hl

/-- C4 amended: reachability is guaranteed only for the entries created by
initiation handling with exactly one configured partner: when
`AddPeerByPublicKey` stores a fresh sender-index entry for a key with a
single partner `q`, the new entry is stored and its address appears in
`endpoints_by_pk[q]`.  (Response handling and multi-partner initiations
create session-index entries no `endpoints_by_pk` list contains.) -/
theorem initiation_single_partner_reachable (pm : PeerManager) (addr : String)
    (sid : SessionIndex) (pk q : PublicKey) (now : Int)
    (hsid : alookup pm.receiverToPeerMap sid = none)
    (hpair : alookup pm.publicKeyToPairPublicKeysMap pk = some [q]) :
    ∃ pm2, addPeerByPublicKey pm addr sid pk now = .ok pm2
      ∧ alookup pm2.receiverToPeerMap sid = some ⟨addr, now⟩
      ∧ ∃ l, alookup pm2.publicKeyToPeersMap q = some l ∧ addr ∈ l.map Peer.addr := by
  rw [addPeerByPublicKey_single pm addr sid pk now q hsid hpair]
  exact ⟨_, rfl, alookup_ainsert_self .., appendUnique_addr_mem pm.publicKeyToPeersMap q ⟨addr, now⟩⟩

/-- C4 amended, witness: the first Initiation of scenario S4 against the
freshly initialised manager. -/
theorem initiation_single_partner_reachable_witness :
    ∃ pm2, addPeerByPublicKey pm0 "1.2.3.4:5000" [0x11, 0x22, 0x33, 0x44] pkB 100 = .ok pm2
      ∧ alookup pm2.receiverToPeerMap [0x11, 0x22, 0x33, 0x44] = some ⟨"1.2.3.4:5000", 100⟩
      ∧ ∃ l, alookup pm2.publicKeyToPeersMap pkA = some l
          ∧ "1.2.3.4:5000" ∈ l.map Peer.addr :=
  initiation_single_partner_reachable pm0 "1.2.3.4:5000" [0x11, 0x22, 0x33, 0x44] pkB pkA 100
    (by decide) (by decide)

/-- C5 counterexample: with pairs `(pkA, pkB)`, `(pkA, pkC)`, `(pkD, pkB)`,
an Initiation authenticated as `pkD` from `7.7.7.7:7` files that address
under `endpoints_by_pk[pkB]`; a later Initiation with fresh sender index
`08 08 08 08`, authenticated as the two-partner key `pkA`, from the same
`7.7.7.7:7`, skips the `endpoints_by_pk` update — yet the new endpoint's
address does appear (deduplicated by address) in `endpoints_by_pk[pkB]` for
the partner `pkB` of `pkA`.  So "pe appears in endpoints_by_pk[partner] iff
pk has exactly one configured partner" is false: the left side holds with
two partners. -/
theorem initiation_partner_iff_counterexample :
    checkMAC1AndGetPublicKey testHash pmMulti1 c5Packet2 = .ok pkA
    ∧ alookup pmMulti1.receiverToPeerMap [8, 8, 8, 8] = none
    ∧ alookup pmMulti1.publicKeyToPairPublicKeysMap pkA = some [pkB, pkC]
    ∧ ([pkB, pkC] : List PublicKey).length ≠ 1
    ∧ alookup pmMulti2.receiverToPeerMap [8, 8, 8, 8] = some ⟨"7.7.7.7:7", 60⟩
    ∧ alookup pmMulti2.publicKeyToPeersMap pkB = some [⟨"7.7.7.7:7", 50⟩]
    ∧ "7.7.7.7:7" ∈ ([⟨"7.7.7.7:7", 50⟩] : List Peer).map Peer.addr :=
  ⟨by decide, by decide, by decide, by decide, by decide, by decide, by decide⟩

/-- C5 amended: handling an authenticated Initiation with a fresh sender
index `sid` stores the new endpoint `pe` at `endpoint_by_sid[sid]`; if the
authenticated key has exactly one configured partner, `pe` is appended
(deduplicated by address) into `endpoints_by_pk[partner]`, so its address
appears there; if the partner count is not one, the `endpoints_by_pk` update
is skipped and that map is left entirely unchanged.  (The original "iff"
fails in the multi-partner direction, because `pe`'s address can already
appear under a partner from an earlier packet.) -/
theorem initiation_fresh_sid_spec (H : HashModel) (pm : PeerManager) (addr : String)
    (p : Bytes) (now : Int) (pk : PublicKey) (ps : List PublicKey)
    (htype : p.headI = 1) (hlen : p.length = 148)
    (hmac : checkMAC1AndGetPublicKey H pm p = .ok pk)
    (hsid : alookup pm.receiverToPeerMap (slice p 4 8) = none)
    (hpart : alookup pm.publicKeyToPairPublicKeysMap pk = some ps) :
    alookup (handlePacket H pm addr p now).state.receiverToPeerMap (slice p 4 8)
        = some ⟨addr, now⟩
    ∧ (∀ q, ps = [q] →
        ∃ l, alookup (handlePacket H pm addr p now).state.publicKeyToPeersMap q = some l
          ∧ addr ∈ l.map Peer.addr)
    ∧ (ps.length ≠ 1 →
        (handlePacket H pm addr p now).state.publicKeyToPeersMap = pm.publicKeyToPeersMap) := by
  rw [handlePacket_type1_ok H pm addr p now pk htype hlen hmac]
  by_cases h1 : ps.length = 1
  · obtain ⟨q0, rfl⟩ := List.length_eq_one.mp h1
    have hadd := addPeerByPublicKey_single pm addr (slice p 4 8) pk now q0 hsid hpart
    rw [handleType1_state _ _ _ _ _ _ _ hadd]
    refine ⟨alookup_ainsert_self .., ?_, fun hcon => absurd rfl hcon⟩
    intro q hq
    obtain rfl : q0 = q := by simpa using hq
    exact appendUnique_addr_mem pm.publicKeyToPeersMap q0 ⟨addr, now⟩
  · have hadd := addPeerByPublicKey_multi pm addr (slice p 4 8) pk now ps hsid hpart h1
    rw [handleType1_state _ _ _ _ _ _ _ hadd]
    refine ⟨alookup_ainsert_self .., ?_, fun _ => rfl⟩
    intro q hq
    exact absurd (by simp [hq] : ps.length = 1) h1

/-- C5 amended, witness: scenario S4's Initiation against the freshly
initialised manager, where `pkB` has the single partner `pkA`. -/
theorem initiation_fresh_sid_spec_witness :
    alookup (handlePacket testHash pm0 "1.2.3.4:5000" s4Packet 100).state.receiverToPeerMap
        (slice s4Packet 4 8) = some ⟨"1.2.3.4:5000", 100⟩
    ∧ (∀ q, ([pkA] : List PublicKey) = [q] →
        ∃ l, alookup
            (handlePacket testHash pm0 "1.2.3.4:5000" s4Packet 100).state.publicKeyToPeersMap
            q = some l
          ∧ "1.2.3.4:5000" ∈ l.map Peer.addr)
    ∧ (([pkA] : List PublicKey).length ≠ 1 →
        (handlePacket testHash pm0 "1.2.3.4:5000" s4Packet 100).state.publicKeyToPeersMap
          = pm0.publicKeyToPeersMap) :=
  initiation_fresh_sid_spec testHash pm0 "1.2.3.4:5000" s4Packet 100 pkB [pkA]
    (by decide) (by decide) (by decide) (by decide) (by decide)

/-- C6: an authenticated Initiation from `A` with a fresh sender index
records `A`'s source address under that index; a subsequent authenticated
Response whose receiver index equals that sender index is forwarded to `A`'s
recorded observed address. -/
theorem roundtrip_response_spec (H : HashModel) (pm : PeerManager)
    (p1 p2 : Bytes) (addrA addrB : String) (now1 now2 : Int)
    (pkI pkR : PublicKey) (ps : List PublicKey)
    (h1type : p1.headI = 1) (h1len : p1.length = 148)
    (h1mac : checkMAC1AndGetPublicKey H pm p1 = .ok pkI)
    (h1sid : alookup pm.receiverToPeerMap (slice p1 4 8) = none)
    (h1pair : alookup pm.publicKeyToPairPublicKeysMap pkI = some ps)
    (h2type : p2.headI = 2) (h2len : p2.length = 92)
    (h2mac : checkMAC1AndGetPublicKey H (handlePacket H pm addrA p1 now1).state p2 = .ok pkR)
    (hrid : slice p2 8 12 = slice p1 4 8) :
    (handlePacket H (handlePacket H pm addrA p1 now1).state addrB p2 now2).sends
      = [(addrA, p2)] := by
  obtain ⟨pm2, hok⟩ : ∃ pm2, addPeerByPublicKey pm addrA (slice p1 4 8) pkI now1 = .ok pm2 := by
    by_cases h1 : ps.length = 1
    · obtain ⟨q, rfl⟩ := List.length_eq_one.mp h1
      exact ⟨_, addPeerByPublicKey_single pm addrA (slice p1 4 8) pkI now1 q h1sid h1pair⟩
    · exact ⟨_, addPeerByPublicKey_multi pm addrA (slice p1 4 8) pkI now1 ps h1sid h1pair h1⟩
  have hstate : (handlePacket H pm addrA p1 now1).state = pm2 := by
    rw [handlePacket_type1_ok H pm addrA p1 now1 pkI h1type h1len h1mac]
    exact handleType1_state _ _ _ _ _ _ _ hok
  have hrid1 : pm2.receiverToPeerMap = ainsert pm.receiverToPeerMap (slice p1 4 8) ⟨addrA, now1⟩ :=
    addPeerByPublicKey_fresh_rid pm pm2 addrA (slice p1 4 8) pkI now1 ps h1sid h1pair hok
  rw [hstate] at h2mac ⊢
  rw [handlePacket_type2_ok H pm2 addrB p2 now2 pkR h2type h2len h2mac]
  unfold handleType2Packet
  have hlook : alookup (addPeerBySenderID pm2 addrB (slice p2 4 8) now2).receiverToPeerMap
      (slice p2 8 12) = some ⟨addrA, now1⟩ := by
    rw [hrid]
    rcases hsb : alookup pm2.receiverToPeerMap (slice p2 4 8) with _ | peer
    · rw [addPeerBySenderID_fresh pm2 addrB (slice p2 4 8) now2 hsb]
      by_cases hEq : slice p1 4 8 = slice p2 4 8
      · exfalso
        rw [← hEq, hrid1, alookup_ainsert_self] at hsb
        exact Option.noConfusion hsb
      · show alookup (ainsert pm2.receiverToPeerMap (slice p2 4 8) ⟨addrB, now2⟩)
            (slice p1 4 8) = some ⟨addrA, now1⟩
        rw [alookup_ainsert_ne _ _ _ _ hEq, hrid1, alookup_ainsert_self]
    · rw [addPeerBySenderID_known pm2 addrB (slice p2 4 8) now2 peer hsb,
        hrid1, alookup_ainsert_self]
  rw [forwardPacketToReceiver_some _ _ _ _ hlook]

/-- C6 witness: S4's Initiation followed by S5's Response, forwarded to the
initiator's observed address `1.2.3.4:5000`. -/
theorem roundtrip_response_spec_witness :
    (handlePacket testHash (handlePacket testHash pm0 "1.2.3.4:5000" s4Packet 100).state
        "5.6.7.8:6000" s5Packet 110).sends = [("1.2.3.4:5000", s5Packet)] :=
  roundtrip_response_spec testHash pm0 s4Packet s5Packet "1.2.3.4:5000" "5.6.7.8:6000" 100 110
    pkB pkA [pkA] (by decide) (by decide) (by decide) (by decide) (by decide)
    (by decide) (by decide) (by decide) (by decide)

/-- C10's invariant: every admitted key (a key of `PublicKeyToMac1KeyMap`)
has a non-empty partner list in `PublicKeyToPairPublicKeysMap`. -/
def admittedHasPartner (pm : PeerManager) : Prop :=
  ∀ pk, (alookup pm.publicKeyToMac1KeyMap pk).isSome →
    ∃ l, alookup pm.publicKeyToPairPublicKeysMap pk = some l ∧ l ≠ []

/-- `AddPublicKeyPair` preserves (and extends) the admitted-key invariant. -/
theorem addPublicKeyPair_admitted (H : HashModel) (pm : PeerManager)
    (pk1 pk2 : PublicKey) (h : admittedHasPartner pm) :
    admittedHasPartner (addPublicKeyPair H pm pk1 pk2) := by
  intro pk hpk
  have hpk2 : pk = pk2 ∨ pk = pk1 ∨ (alookup pm.publicKeyToMac1KeyMap pk).isSome := by
    have hpk1 : (alookup (ainsert (ainsert pm.publicKeyToMac1KeyMap pk1
        (calculateMac1Key H pk1)) pk2 (calculateMac1Key H pk2)) pk).isSome := hpk
    rw [alookup_ainsert] at hpk1
    by_cases h2 : pk = pk2
    · exact Or.inl h2
    · rw [if_neg h2, alookup_ainsert] at hpk1
      by_cases h1 : pk = pk1
      · exact Or.inr (Or.inl h1)
      · rw [if_neg h1] at hpk1
        exact Or.inr (Or.inr hpk1)
  show ∃ l, alookup (appendUniqueValue (appendUniqueValue pm.publicKeyToPairPublicKeysMap
      pk1 pk2 pkEq) pk2 pk1 pkEq) pk = some l ∧ l ≠ []
  rcases hpk2 with rfl | rfl | hold
  · exact appendUnique_self_nonempty _ pk pk1 pkEq
  · exact appendUnique_preserves_nonempty _ pk2 pk pk pkEq
      (appendUnique_self_nonempty _ pk pk2 pkEq)
  · exact appendUnique_preserves_nonempty _ pk2 pk pk1 pkEq
      (appendUnique_preserves_nonempty _ pk1 pk pk2 pkEq (h pk hold))

/-- The invariant holds right after `NewPeerManager`, for any pair list. -/
theorem newPeerManager_admitted (H : HashModel) (pairs : List (PublicKey × PublicKey))
    (exp : Int) : admittedHasPartner (newPeerManager H pairs exp) := by
  have hgen : ∀ (l : List (PublicKey × PublicKey)) (pm : PeerManager), admittedHasPartner pm →
      admittedHasPartner (l.foldl (fun pm pair => addPublicKeyPair H pm pair.1 pair.2) pm) := by
    intro l
    induction l with
    | nil => exact fun pm h => h
    | cons hd t ih => exact fun pm h => ih _ (addPublicKeyPair_admitted H pm hd.1 hd.2 h)
  refine hgen pairs _ ?_
  intro pk hpk
  simp [alookup] at hpk

/-- `AddPeerBySenderID` never touches the two configuration maps. -/
theorem addPeerBySenderID_config (pm : PeerManager) (addr : String) (sid : SessionIndex)
    (now : Int) :
    (addPeerBySenderID pm addr sid now).publicKeyToMac1KeyMap = pm.publicKeyToMac1KeyMap
    ∧ (addPeerBySenderID pm addr sid now).publicKeyToPairPublicKeysMap
        = pm.publicKeyToPairPublicKeysMap := by
  rcases h : alookup pm.receiverToPeerMap sid with _ | peer <;> simp [addPeerBySenderID, h]

/-- The state after `HandleType2Packet` is the one left by `AddPeerBySenderID`. -/
theorem handleType2_state (pm : PeerManager) (addr : String) (sid rid : SessionIndex)
    (pk : PublicKey) (payload : Bytes) (now : Int) :
    (handleType2Packet pm addr sid rid pk payload now).state
      = addPeerBySenderID pm addr sid now :=
  forwardPacketToReceiver_state _ _ _

/-- `HandlePacket` never touches the two configuration maps. -/
theorem handlePacket_config_immutable (H : HashModel) (pm : PeerManager) (addr : String)
    (p : Bytes) (now : Int) :
    (handlePacket H pm addr p now).state.publicKeyToMac1KeyMap = pm.publicKeyToMac1KeyMap
    ∧ (handlePacket H pm addr p now).state.publicKeyToPairPublicKeysMap
        = pm.publicKeyToPairPublicKeysMap := by
  by_cases h0 : p.length < 1
  · simp [handlePacket, h0]
  · by_cases h1 : p.headI = 1
    · by_cases hl1 : p.length = 148
      · cases hpk : checkMAC1AndGetPublicKey H pm p with
        | error e =>
            rw [handlePacket_type1_err H pm addr p now e h1 hl1 hpk]
            exact ⟨rfl, rfl⟩
        | ok pk =>
            rw [handlePacket_type1_ok H pm addr p now pk h1 hl1 hpk]
            cases hadd : addPeerByPublicKey pm addr (slice p 4 8) pk now with
            | error e =>
                rw [handleType1_err _ _ _ _ _ _ _ hadd]
                exact ⟨rfl, rfl⟩
            | ok pm2 =>
                rw [handleType1_state _ _ _ _ _ _ _ hadd]
                have hs := (addPeerByPublicKey_shape pm addr (slice p 4 8) pk now).2 pm2 hadd
                exact ⟨hs.1, hs.2.1⟩
      · simp [handlePacket, h0, h1, hl1]
    · by_cases h2 : p.headI = 2
      · by_cases hl2 : p.length = 92
        · cases hpk : checkMAC1AndGetPublicKey H pm p with
          | error e =>
              rw [handlePacket_type2_err H pm addr p now e h2 hl2 hpk]
              exact ⟨rfl, rfl⟩
          | ok pk =>
              rw [handlePacket_type2_ok H pm addr p now pk h2 hl2 hpk,
                handleType2_state pm addr (slice p 4 8) (slice p 8 12) pk p now]
              exact addPeerBySenderID_config pm addr (slice p 4 8) now
        · simp [handlePacket, h0, h1, h2, hl2]
      · by_cases h3 : p.headI = 3
        · by_cases hl3 : p.length = 64
          · rw [handlePacket_type3 H pm addr p now h3 hl3,
              show (handleType3And4Packet pm (slice p 4 8) p).state = pm from
                forwardPacketToReceiver_state _ _ _]
            exact ⟨rfl, rfl⟩
          · simp [handlePacket, h0, h1, h2, h3, hl3]
        · by_cases h4 : p.headI = 4
          · by_cases hl4 : p.length < 32
            · simp [handlePacket, h0, h1, h2, h3, h4, hl4]
            · rw [handlePacket_type4 H pm addr p now h4 (by omega),
                show (handleType3And4Packet pm (slice p 4 8) p).state = pm from
                  forwardPacketToReceiver_state _ _ _]
              exact ⟨rfl, rfl⟩
          · simp [handlePacket, h0, h1, h2, h3, h4]

/-- `CleanupPeers` never touches the two configuration maps. -/
theorem cleanupPeers_config_immutable (pm : PeerManager) (now : Int) :
    (cleanupPeers pm now).1.publicKeyToMac1KeyMap = pm.publicKeyToMac1KeyMap
    ∧ (cleanupPeers pm now).1.publicKeyToPairPublicKeysMap
        = pm.publicKeyToPairPublicKeysMap := by
  by_cases h : pm.peerExpiration ≤ 0 <;> simp [cleanupPeers, h]

/-- C10: after initialization every admitted public key (key of
`PublicKeyToMac1KeyMap`) has a non-empty partner list in
`PublicKeyToPairPublicKeysMap`; packet handling and the sweeper preserve
this forever; consequently, for any key the MAC1 authenticator can return,
`AddPeerByPublicKey` cannot take its `PeerNotFound` branch — it succeeds. -/
theorem admitted_partner_invariant (H : HashModel) :
    (∀ pairs exp, admittedHasPartner (newPeerManager H pairs exp))
    ∧ (∀ pm addr p now, admittedHasPartner pm →
        admittedHasPartner (handlePacket H pm addr p now).state)
    ∧ (∀ pm now, admittedHasPartner pm → admittedHasPartner (cleanupPeers pm now).1)
    ∧ (∀ pm p pk addr sid now, admittedHasPartner pm →
        checkMAC1AndGetPublicKey H pm p = .ok pk →
        ∃ pm2, addPeerByPublicKey pm addr sid pk now = .ok pm2) := by
  refine ⟨newPeerManager_admitted H, ?_, ?_, ?_⟩
  · intro pm addr p now h pk hpk
    obtain ⟨hm, hp⟩ := handlePacket_config_immutable H pm addr p now
    rw [hm] at hpk
    rw [hp]
    exact h pk hpk
  · intro pm now h pk hpk
    obtain ⟨hm, hp⟩ := cleanupPeers_config_immutable pm now
    rw [hm] at hpk
    rw [hp]
    exact h pk hpk
  · intro pm p pk addr sid now h hpk
    have hsome : (alookup pm.publicKeyToMac1KeyMap pk).isSome := by
      unfold checkMAC1AndGetPublicKey at hpk
      rcases hf : pm.publicKeyToMac1KeyMap.find? (fun e => mac1Matches H p e.2) with _ | ent
      · rw [hf] at hpk
        simp at hpk
      · rw [hf] at hpk
        rw [Except.ok.injEq] at hpk
        subst hpk
        exact mem_alookup_isSome
          (show (ent.1, ent.2) ∈ _ by simpa using List.mem_of_find?_eq_some hf)
    obtain ⟨l, hl, _⟩ := h pk hsome
    rcases hsid : alookup pm.receiverToPeerMap sid with _ | peer
    · by_cases h1 : l.length = 1
      · obtain ⟨q, rfl⟩ := List.length_eq_one.mp h1
        exact ⟨_, addPeerByPublicKey_single pm addr sid pk now q hsid hl⟩
      · exact ⟨_, addPeerByPublicKey_multi pm addr sid pk now l hsid hl h1⟩
    · exact ⟨_, addPeerByPublicKey_known pm addr sid pk now peer hsid⟩

/-- C10 witness: against the freshly initialised `pm0`, the key returned by
the authenticator for S4's packet (`pkB`) makes `AddPeerByPublicKey` succeed. -/
theorem admitted_partner_invariant_witness :
    ∃ pm2, addPeerByPublicKey pm0 "1.2.3.4:5000" [0x11, 0x22, 0x33, 0x44] pkB 100 = .ok pm2 :=
  (admitted_partner_invariant testHash).2.2.2 pm0 s4Packet pkB "1.2.3.4:5000"
    [0x11, 0x22, 0x33, 0x44] 100
    ((admitted_partner_invariant testHash).1 [(pkA, pkB)] 60) (by decide)

end WgKnot
